import Mathlib

/-!
Verification of the data-transformation core of the energy/emissions
dashboard (`src/app.py`).

The program's core is a pipeline over three tabular datasets keyed by
(country, year):
  * `clean_eurostat` (app.py lines 25-34): rename `geo`/`TIME_PERIOD`/
    `OBS_VALUE` to `country`/`year`/<value>, project to those three
    columns, coerce `year` to integer (a failure aborts the whole table),
    then drop rows containing nulls;
  * sidebar filtering (app.py lines 48-71): `min_year`/`max_year` are the
    max of per-table minima and min of per-table maxima, and each table is
    filtered with `country == selected and year_lo <= year <= year_hi`;
  * `scatter_df` (app.py lines 104-108): two-step inner merge of the three
    filtered tables on `["country", "year"]`;
  * `top_emitters` (app.py lines 170-175): groupby country on the FULL
    emissions table, mean of emissions, sort descending, head 10;
  * the correlation heatmap (app.py lines 187-194): pairwise Pearson
    correlation over the joined numeric columns.

Tables are embedded as Lean lists of records; numeric observation values
as rationals; the real-valued Pearson coefficient over `ℝ`.
-/

namespace EnergyDash

/-- A raw input row after the projection to the three retained columns of
`clean_eurostat` (app.py lines 26-31): `geo`, `TIME_PERIOD`, `OBS_VALUE`.
Any of the three cells may be null (`none`); the raw `TIME_PERIOD` cell is
a year-like string that may fail to parse as an integer. -/
structure RawRow where
  geo : Option String
  time_period : Option String
  obs_value : Option ℚ
deriving DecidableEq, Repr

/-- A row of a cleaned Observation Table: `country`, integer `year`, and
the single numeric value column (`emissions`, `renewables` or `energy`). -/
structure Row where
  country : String
  year : Int
  value : ℚ
deriving DecidableEq, Repr

/-- Errors of the cleaning stage (spec section 7): `invalidYear` models the
exception raised by `df["year"].astype(int)` at app.py line 32 when some
year cell cannot be coerced to an integer. -/
inductive CleanErr where
  | invalidYear
deriving DecidableEq, Repr

/-- One decimal digit of a year-like string. -/
def charDigit? (c : Char) : Option Nat :=
  if '0' ≤ c ∧ c ≤ '9' then some (c.toNat - Char.toNat '0') else none

/-- Accumulate the decimal value of a digit string; `none` on the first
non-digit character. -/
def digitsVal? (acc : Nat) : List Char → Option Nat
  | [] => some acc
  | c :: cs =>
    match charDigit? c with
    | some d => digitsVal? (acc * 10 + d) cs
    | none => none

/-- Parse a string as a (possibly negative) decimal integer; `none` when
the string is not an integer numeral. This is the executable embedding of
"the value can be coerced to an integer" used by `astype(int)`. -/
def parseInt? (s : String) : Option Int :=
  match s.data with
  | [] => none
  | '-' :: cs => if cs = [] then none else (digitsVal? 0 cs).map (fun n => -(n : Int))
  | cs => (digitsVal? 0 cs).map (fun n => (n : Int))

/-- Year coercion for one cell, as in `astype(int)`: a null cell or a
non-integer string fails. -/
def parseYear? (o : Option String) : Option Int :=
  o.bind (fun s => parseInt? s)

/-- Intermediate row after `df["year"].astype(int)` (app.py line 32): the
year is now a concrete integer, but `country` and the value column may
still hold nulls (they are dropped only afterwards, at line 33). -/
structure CoercedRow where
  geo : Option String
  year : Int
  obs_value : Option ℚ
deriving DecidableEq, Repr

/-- Year coercion `df["year"].astype(int)` over the whole table (app.py line 32): every
row's year cell is coerced; the first non-coercible cell aborts the whole
table with `InvalidYear`. -/
def coerceYears : List RawRow → Except CleanErr (List CoercedRow)
  | [] => .ok []
  | r :: rs =>
    match parseYear? r.time_period with
    | none => .error .invalidYear
    | some y => (coerceYears rs).map (fun out => ⟨r.geo, y, r.obs_value⟩ :: out)

/-- Null dropping `df.dropna()` (app.py line 33): keep exactly the rows with no null in
any retained column (the year column holds no nulls at this point). -/
def dropna (rows : List CoercedRow) : List Row :=
  rows.filterMap (fun r =>
    match r.geo, r.obs_value with
    | some c, some v => some ⟨c, r.year, v⟩
    | _, _ => none)

/-- The cleaner `clean_eurostat` (app.py lines 25-34): after the rename and projection
(absorbed into the `RawRow` shape), coerce years, then drop null rows. -/
def clean_eurostat (raw : List RawRow) : Except CleanErr (List Row) :=
  (coerceYears raw).map dropna

/-- The sidebar filter (app.py lines 69-71):
`query("country == @selected_country and year >= @year_range[0] and year <= @year_range[1]")`. -/
def filterTable (t : List Row) (c : String) (lo hi : Int) : List Row :=
  t.filter (fun r => r.country == c && decide (lo ≤ r.year) && decide (r.year ≤ hi))

/-- The (country, year) join key of a cleaned row. -/
def Row.key (r : Row) : String × Int := (r.country, r.year)

/-- A row of the intermediate table `emi_f.merge(ren_f, on=["country","year"], how="inner")`
(app.py line 106): join key plus the two value columns. -/
structure Row2 where
  country : String
  year : Int
  v1 : ℚ
  v2 : ℚ
deriving DecidableEq, Repr

/-- The (country, year) join key of an intermediate joined row. -/
def Row2.key (r : Row2) : String × Int := (r.country, r.year)

/-- A row of the fully joined table `scatter_df` (app.py lines 104-108):
join key plus the three value columns, in join order. -/
structure Row3 where
  country : String
  year : Int
  v1 : ℚ
  v2 : ℚ
  v3 : ℚ
deriving DecidableEq, Repr

/-- The (country, year) join key of a fully joined row. -/
def Row3.key (r : Row3) : String × Int := (r.country, r.year)

/-- Pandas inner `merge` on a common key (app.py lines 106-107): each left
row is paired with every right row carrying an equal key, in left order. -/
def mergeOn (keyl : α → String × Int) (keyr : β → String × Int)
    (mk : α → β → γ) (l : List α) (r : List β) : List γ :=
  l.flatMap (fun a => (r.filter (fun b => decide (keyl a = keyr b))).map (mk a))

/-- First merge `emi_f.merge(ren_f, on=["country", "year"], how="inner")` (app.py line 106). -/
def merge2 (l r : List Row) : List Row2 :=
  mergeOn Row.key Row.key (fun a b => ⟨a.country, a.year, a.value, b.value⟩) l r

/-- Second merge `.merge(ene_f, on=["country", "year"], how="inner")` (app.py line 107). -/
def merge3 (l : List Row2) (r : List Row) : List Row3 :=
  mergeOn Row2.key Row.key (fun a b => ⟨a.country, a.year, a.v1, a.v2, b.value⟩) l r

/-- The three-way inner join, in the source's order: `scatter_df`
(app.py lines 104-108) with v1 = emissions, v2 = renewables, v3 = energy. -/
def scatter_df (emi ren ene : List Row) : List Row3 :=
  merge3 (merge2 emi ren) ene

/-- The minimum of a table's year column, `df.year.min()` (app.py lines 48-52);
`none` on an empty table. -/
def minYear? (t : List Row) : Option Int :=
  (t.map (fun r => r.year)).min?

/-- The maximum of a table's year column, `df.year.max()` (app.py lines 53-57);
`none` on an empty table. -/
def maxYear? (t : List Row) : Option Int :=
  (t.map (fun r => r.year)).max?

/-- The common year range of the three cleaned tables (app.py lines 48-57):
`min_year = max` of the three per-table minima, `max_year = min` of the
three per-table maxima; `none` when some table is empty. -/
def commonYearRange? (t1 t2 t3 : List Row) : Option (Int × Int) :=
  match minYear? t1, minYear? t2, minYear? t3, maxYear? t1, maxYear? t2, maxYear? t3 with
  | some m1, some m2, some m3, some M1, some M2, some M3 =>
    some (max (max m1 m2) m3, min (min M1 M2) M3)
  | _, _, _, _, _, _ => none

/-- The mean of the `emissions` column of the rows of one country:
`groupby("country")["emissions"].mean()` for that group (app.py line 171). -/
def meanOf (t : List Row) (c : String) : ℚ :=
  let vs := (t.filter (fun r => r.country == c)).map (fun r => r.value)
  vs.sum / vs.length

/-- The aggregator `top_emitters` (app.py lines 170-175): group the full emissions table
by country, take the mean of each group, `sort_values(ascending=False)`,
`head(10)`. -/
def top_emitters (t : List Row) : List (String × ℚ) :=
  ((((t.map (fun r => r.country)).dedup).map (fun c => (c, meanOf t c))).mergeSort
    (fun a b => decide (b.2 ≤ a.2))).take 10

/-- The ranking view of the dashboard: the code computes `top_emitters`
from the unfiltered `emissions` table (app.py line 171), so the selected
country and year range are taken as arguments but never consulted. -/
def rankingView (emissions : List Row) (c : String) (lo hi : Int) : List (String × ℚ) :=
  top_emitters emissions

/-- Arithmetic mean of a numeric column. -/
def meanQ (xs : List ℚ) : ℚ :=
  xs.sum / xs.length

/-- Unnormalised covariance of two equally long numeric columns: the sum of
products of deviations from the column means. Pandas divides by `n - 1`,
but the normalisation cancels in the correlation quotient. -/
def covQ (xs ys : List ℚ) : ℚ :=
  ((xs.zip ys).map (fun p => (p.1 - meanQ xs) * (p.2 - meanQ ys))).sum

/-- The Pearson correlation coefficient of two columns, as computed by
`DataFrame.corr()` (app.py line 189): covariance over the product of the
standard deviations. -/
noncomputable def pearson (xs ys : List ℚ) : ℝ :=
  (covQ xs ys : ℝ) / (Real.sqrt (covQ xs xs) * Real.sqrt (covQ ys ys))

/-- One entry of the correlation matrix: with fewer than two observations
the correlation is undefined and pandas reports NaN; the embedding reports
the sentinel `none` (spec section 4.6). -/
noncomputable def corrEntry? (xs ys : List ℚ) : Option ℝ :=
  if xs.length < 2 then none else some (pearson xs ys)

/-- The numeric columns `emissions`, `renewables`, `energy` of the joined
table, indexed in the order of `scatter_df[["emissions", "renewables",
"energy"]]` (app.py line 189). -/
def col (i : Fin 3) (t : List Row3) : List ℚ :=
  match i with
  | 0 => t.map (fun r => r.v1)
  | 1 => t.map (fun r => r.v2)
  | 2 => t.map (fun r => r.v3)

/-- The 3×3 correlation matrix `scatter_df[["emissions", "renewables",
"energy"]].corr()` of the heatmap (app.py lines 187-194). -/
noncomputable def corrMatrix (t : List Row3) (i j : Fin 3) : Option ℝ :=
  corrEntry? (col i t) (col j t)

/-- A column is constant when all its entries coincide; a non-constant
column is the non-degeneracy condition for Pearson correlation. -/
def ConstCol (xs : List ℚ) : Prop :=
  ∀ a ∈ xs, ∀ b ∈ xs, a = b

instance (xs : List ℚ) : Decidable (ConstCol xs) := by
  unfold ConstCol
  infer_instance

/-! ## Cleaner -/

/-- A non-coercible year cell anywhere in the table aborts `coerceYears`. -/
theorem coerceYears_err (raw : List RawRow)
    (h : ∃ s ∈ raw, parseYear? s.time_period = none) :
    coerceYears raw = .error .invalidYear := by
  induction raw with
  | nil => simp at h
  | cons s rs ih =>
    rcases h with ⟨w, hw, hbad⟩
    rcases List.mem_cons.mp hw with rfl | hmem
    · simp [coerceYears, hbad]
    · cases hp : parseYear? s.time_period with
      | none => simp [coerceYears, hp]
      | some y =>
        have : coerceYears rs = .error .invalidYear := ih ⟨w, hmem, hbad⟩
        simp [coerceYears, hp, this, Except.map]

/-- Successful `coerceYears` output, row by row: each output row keeps the
input row's `geo` and `obs_value` and carries its parsed year. -/
theorem coerceYears_ok (raw : List RawRow) (out : List CoercedRow)
    (h : coerceYears raw = .ok out) :
    ∀ r ∈ out, ∃ s ∈ raw, s.geo = r.geo ∧ s.obs_value = r.obs_value ∧
      parseYear? s.time_period = some r.year := by
  induction raw generalizing out with
  | nil =>
    simp only [coerceYears] at h
    cases h
    simp
  | cons s rs ih =>
    simp only [coerceYears] at h
    cases hp : parseYear? s.time_period with
    | none => rw [hp] at h; cases h
    | some y =>
      rw [hp] at h
      cases hc : coerceYears rs with
      | error e => rw [hc] at h; cases h
      | ok rest =>
        rw [hc] at h
        simp only [Except.map] at h
        cases h
        intro r hr
        rcases List.mem_cons.mp hr with rfl | hmem
        · exact ⟨s, List.mem_cons_self s rs, rfl, rfl, hp⟩
        · rcases ih rest hc r hmem with ⟨w, hw, h1, h2, h3⟩
          exact ⟨w, List.mem_cons_of_mem s hw, h1, h2, h3⟩

/-- Each row of `dropna`'s output comes from an input row with non-null
`geo` and `obs_value`, whose cells it carries. -/
theorem dropna_mem (rows : List CoercedRow) (r : Row) (h : r ∈ dropna rows) :
    ∃ s ∈ rows, s.geo = some r.country ∧ s.year = r.year ∧
      s.obs_value = some r.value := by
  unfold dropna at h
  rcases List.mem_filterMap.mp h with ⟨s, hs, hmk⟩
  refine ⟨s, hs, ?_⟩
  cases hg : s.geo with
  | none => rw [hg] at hmk; cases hmk
  | some c =>
    cases ho : s.obs_value with
    | none => rw [hg, ho] at hmk; cases hmk
    | some v =>
      rw [hg, ho] at hmk
      cases hmk
      exact ⟨rfl, rfl, rfl⟩

/-- C5: whenever `clean_eurostat` succeeds, every output row has a non-null
country, an integer year obtained by parsing the raw year cell, and a
non-null value, all taken from a single raw input row: the cleaner never
yields nulls in the retained columns. -/
theorem clean_eurostat_no_nulls (raw : List RawRow) (out : List Row)
    (h : clean_eurostat raw = .ok out) :
    ∀ r ∈ out, ∃ s ∈ raw, s.geo = some r.country ∧
      (∃ ys, s.time_period = some ys ∧ parseInt? ys = some r.year) ∧
      s.obs_value = some r.value := by
  unfold clean_eurostat at h
  cases hc : coerceYears raw with
  | error e => rw [hc] at h; cases h
  | ok mid =>
    rw [hc] at h
    simp only [Except.map] at h
    cases h
    intro r hr
    rcases dropna_mem mid r hr with ⟨s, hs, h1, h2, h3⟩
    rcases coerceYears_ok raw mid hc s hs with ⟨w, hw, g1, g2, g3⟩
    refine ⟨w, hw, by rw [g1, h1], ?_, by rw [g2, h3]⟩
    rw [h2] at g3
    unfold parseYear? at g3
    rcases Option.bind_eq_some.mp g3 with ⟨ys, hys, hint⟩
    exact ⟨ys, hys, hint⟩

/-- Witness for C5 on a concrete raw table: the row with a null country is
dropped, the surviving row is fully non-null and traceable to its input. -/
theorem clean_eurostat_no_nulls_witness :
    clean_eurostat [⟨some "DE", some "2020", some 5⟩, ⟨none, some "2019", some 3⟩]
      = .ok [⟨"DE", 2020, 5⟩] ∧
    ∀ r ∈ [(⟨"DE", 2020, 5⟩ : Row)],
      ∃ s ∈ [(⟨some "DE", some "2020", some 5⟩ : RawRow), ⟨none, some "2019", some 3⟩],
        s.geo = some r.country ∧
        (∃ ys, s.time_period = some ys ∧ parseInt? ys = some r.year) ∧
        s.obs_value = some r.value :=
  ⟨rfl,
   clean_eurostat_no_nulls
     [⟨some "DE", some "2020", some 5⟩, ⟨none, some "2019", some 3⟩]
     [⟨"DE", 2020, 5⟩] rfl⟩

/-- C6: a year cell that cannot be parsed as an integer anywhere in the raw
table makes `clean_eurostat` fail with `InvalidYear` for the whole table —
the coercion at app.py line 32 runs before the null-drop at line 33, so
such a row is a hard failure rather than being dropped, and nothing is
partially cleaned. -/
theorem clean_eurostat_invalid_year (raw : List RawRow)
    (h : ∃ s ∈ raw, parseYear? s.time_period = none) :
    clean_eurostat raw = .error .invalidYear := by
  unfold clean_eurostat
  rw [coerceYears_err raw h]
  rfl

/-- Witness for C6: the offending row has a null country, so the null-drop
would have removed it, yet the whole table is still rejected. -/
theorem clean_eurostat_invalid_year_witness :
    (∃ s ∈ [(⟨none, some "20x0", some 5⟩ : RawRow), ⟨some "DE", some "2020", some 7⟩],
      parseYear? s.time_period = none) ∧
    clean_eurostat [⟨none, some "20x0", some 5⟩, ⟨some "DE", some "2020", some 7⟩]
      = .error .invalidYear :=
  ⟨⟨⟨none, some "20x0", some 5⟩, by decide, by decide⟩,
   clean_eurostat_invalid_year
     [⟨none, some "20x0", some 5⟩, ⟨some "DE", some "2020", some 7⟩]
     ⟨⟨none, some "20x0", some 5⟩, by decide, by decide⟩⟩

/-! ## Filter -/

/-- C4: the sidebar filter selects exactly the rows whose country equals
the selected country and whose year lies in the inclusive range
`[year_lo, year_hi]`; when nothing matches it returns the empty table
rather than raising an error. -/
theorem filterTable_spec (t : List Row) (c : String) (lo hi : Int) (h : lo ≤ hi) :
    (∀ r : Row, r ∈ filterTable t c lo hi ↔
      (r ∈ t ∧ r.country = c ∧ lo ≤ r.year ∧ r.year ≤ hi)) ∧
    (filterTable t c lo hi = [] ↔
      ∀ r ∈ t, ¬(r.country = c ∧ lo ≤ r.year ∧ r.year ≤ hi)) := by
  constructor
  · intro r
    simp [filterTable, List.mem_filter, and_assoc]
  · rw [filterTable, List.filter_eq_nil_iff]
    constructor
    · intro hall r hr hgood
      exact hall r hr (by simp [hgood.1, hgood.2.1, hgood.2.2])
    · intro hall r hr hb
      simp only [Bool.and_eq_true, beq_iff_eq, decide_eq_true_eq] at hb
      exact hall r hr ⟨hb.1.1, hb.1.2, hb.2⟩

/-- Witness for C4 at a concrete table: one matching row, one row of
another country, one row outside the year range. -/
theorem filterTable_spec_witness :
    ((2000 : Int) ≤ 2020) ∧
    ((∀ r : Row, r ∈ filterTable [⟨"DE", 2010, 5⟩, ⟨"FR", 2010, 7⟩, ⟨"DE", 1990, 9⟩] "DE" 2000 2020 ↔
      (r ∈ [(⟨"DE", 2010, 5⟩ : Row), ⟨"FR", 2010, 7⟩, ⟨"DE", 1990, 9⟩] ∧
        r.country = "DE" ∧ 2000 ≤ r.year ∧ r.year ≤ 2020)) ∧
    (filterTable [⟨"DE", 2010, 5⟩, ⟨"FR", 2010, 7⟩, ⟨"DE", 1990, 9⟩] "DE" 2000 2020 = [] ↔
      ∀ r ∈ [(⟨"DE", 2010, 5⟩ : Row), ⟨"FR", 2010, 7⟩, ⟨"DE", 1990, 9⟩],
        ¬(r.country = "DE" ∧ 2000 ≤ r.year ∧ r.year ≤ 2020))) :=
  ⟨by decide,
   filterTable_spec [⟨"DE", 2010, 5⟩, ⟨"FR", 2010, 7⟩, ⟨"DE", 1990, 9⟩] "DE" 2000 2020
     (by decide)⟩

/-- Filtering a list twice with one predicate is filtering once. -/
theorem filter_twice (p : α → Bool) (l : List α) :
    (l.filter p).filter p = l.filter p := by
  rw [List.filter_filter]
  simp

/-- C9: the sidebar filter is idempotent — filtering an already-filtered
table again with the same country and year bounds returns it unchanged. -/
theorem filterTable_idempotent (t : List Row) (c : String) (lo hi : Int) (h : lo ≤ hi) :
    filterTable (filterTable t c lo hi) c lo hi = filterTable t c lo hi := by
  unfold filterTable
  exact filter_twice _ t

/-- Witness for C9 at a concrete table. -/
theorem filterTable_idempotent_witness :
    ((2000 : Int) ≤ 2020) ∧
    filterTable (filterTable [⟨"DE", 2010, 5⟩, ⟨"FR", 2010, 7⟩] "DE" 2000 2020) "DE" 2000 2020 =
      filterTable [⟨"DE", 2010, 5⟩, ⟨"FR", 2010, 7⟩] "DE" 2000 2020 :=
  ⟨by decide,
   filterTable_idempotent [⟨"DE", 2010, 5⟩, ⟨"FR", 2010, 7⟩] "DE" 2000 2020 (by decide)⟩

/-! ## Joiner: counting lemmas -/

/-- Membership in a pandas-style inner merge: an output row is the
combination of a left row and a right row with equal keys. -/
theorem mem_mergeOn {keyl : α → String × Int} {keyr : β → String × Int}
    {mk : α → β → γ} {l : List α} {r : List β} {c : γ} :
    c ∈ mergeOn keyl keyr mk l r ↔
      ∃ a ∈ l, ∃ b ∈ r, keyl a = keyr b ∧ c = mk a b := by
  simp only [mergeOn, List.mem_flatMap, List.mem_map, List.mem_filter, decide_eq_true_eq]
  constructor
  · rintro ⟨a, ha, b, ⟨hb, hk⟩, hmk⟩
    exact ⟨a, ha, b, hb, hk, hmk.symm⟩
  · rintro ⟨a, ha, b, hb, hk, hmk⟩
    exact ⟨a, ha, b, ⟨hb, hk⟩, hmk.symm⟩

/-- In a table with pairwise distinct keys, at most one row matches any
given key. -/
theorem length_filter_key_le_one {key : β → String × Int} {r : List β}
    (h : (r.map key).Nodup) (k : String × Int) :
    (r.filter (fun b => decide (k = key b))).length ≤ 1 := by
  induction r with
  | nil => simp
  | cons b rs ih =>
    simp only [List.map_cons, List.nodup_cons] at h
    by_cases hk : k = key b
    · have hnil : rs.filter (fun x => decide (k = key x)) = [] := by
        rw [List.filter_eq_nil_iff]
        intro x hx hkx
        rw [decide_eq_true_eq] at hkx
        apply h.1
        have hbx : key b = key x := by rw [← hk, hkx]
        rw [hbx]
        exact List.mem_map_of_mem key hx
      have hpred : (decide (k = key b)) = true := by rw [decide_eq_true_eq]; exact hk
      simp only [List.filter_cons, hpred, if_true, hnil, List.length_cons, List.length_nil]
      omega
    · simpa [List.filter_cons, hk] using ih h.2

/-- If the right table's keys are pairwise distinct, the inner merge has at
most as many rows as the left table. -/
theorem length_mergeOn_le_left {keyl : α → String × Int} {keyr : β → String × Int}
    {mk : α → β → γ} {l : List α} {r : List β}
    (hr : (r.map keyr).Nodup) :
    (mergeOn keyl keyr mk l r).length ≤ l.length := by
  rw [mergeOn, List.length_flatMap]
  have hb : ∀ x ∈ l.map (List.length ∘ fun a =>
      (r.filter (fun b => decide (keyl a = keyr b))).map (mk a)), x ≤ 1 := by
    intro x hx
    rcases List.mem_map.mp hx with ⟨a, _, rfl⟩
    simpa [List.length_map] using length_filter_key_le_one hr (keyl a)
  calc (l.map (List.length ∘ fun a =>
        (r.filter (fun b => decide (keyl a = keyr b))).map (mk a))).sum
      ≤ (l.map (List.length ∘ fun a =>
        (r.filter (fun b => decide (keyl a = keyr b))).map (mk a))).length • 1 :=
        List.sum_le_card_nsmul _ 1 hb
    _ = l.length := by simp

/-- The length of a filtered list is the sum of the indicator values of
the predicate. -/
theorem length_filter_eq_sum_ind (q : β → Bool) (r : List β) :
    (r.filter q).length = (r.map (fun b => if q b then 1 else 0)).sum := by
  induction r with
  | nil => rfl
  | cons b r ih => by_cases h : q b <;> simp [List.filter_cons, h, ih] <;> omega

/-- Sums of pointwise sums split. -/
theorem sum_map_add (f g : β → ℕ) (r : List β) :
    (r.map (fun b => f b + g b)).sum = (r.map f).sum + (r.map g).sum := by
  induction r with
  | nil => rfl
  | cons b r ih =>
    simp only [List.map_cons, List.sum_cons, ih]
    omega

/-- The number of matches of a list, counted row by row on either side:
both sums count the matching pairs. -/
theorem sum_length_filter_comm (p : α → β → Bool) (l : List α) (r : List β) :
    (l.map (fun a => (r.filter (fun b => p a b)).length)).sum
      = (r.map (fun b => (l.filter (fun a => p a b)).length)).sum := by
  induction l with
  | nil => simp
  | cons a l ih =>
    simp only [List.map_cons, List.sum_cons, ih]
    have hpt : ∀ b ∈ r, ((a :: l).filter (fun x => p x b)).length
        = (if p a b then 1 else 0) + (l.filter (fun x => p x b)).length := by
      intro b _
      by_cases h : p a b <;> simp [List.filter_cons, h] <;> omega
    rw [List.map_congr_left hpt, sum_map_add, ← length_filter_eq_sum_ind]

/-- If the left table's keys are pairwise distinct, the inner merge has at
most as many rows as the right table. -/
theorem length_mergeOn_le_right {keyl : α → String × Int} {keyr : β → String × Int}
    {mk : α → β → γ} {l : List α} {r : List β}
    (hl : (l.map keyl).Nodup) :
    (mergeOn keyl keyr mk l r).length ≤ r.length := by
  rw [mergeOn, List.length_flatMap]
  have step : (l.map (List.length ∘ fun a =>
      (r.filter (fun b => decide (keyl a = keyr b))).map (mk a))).sum
      = (l.map (fun a => (r.filter (fun b => decide (keyl a = keyr b))).length)).sum := by
    simp [Function.comp_def, List.length_map]
  rw [step, sum_length_filter_comm]
  have hb : ∀ x ∈ r.map (fun b => (l.filter (fun a => decide (keyl a = keyr b))).length), x ≤ 1 := by
    intro x hx
    rcases List.mem_map.mp hx with ⟨b, _, rfl⟩
    have hone := @length_filter_key_le_one _ keyl _ hl (keyr b)
    simpa [eq_comm] using hone
  calc (r.map (fun b => (l.filter (fun a => decide (keyl a = keyr b))).length)).sum
      ≤ (r.map (fun b => (l.filter (fun a => decide (keyl a = keyr b))).length)).length • 1 :=
        List.sum_le_card_nsmul _ 1 hb
    _ = r.length := by simp

/-- Keys of a merged row come from the left operand. -/
theorem mem_mergeOn_key {keyl : α → String × Int} {keyr : β → String × Int}
    {mk : α → β → γ} {keyc : γ → String × Int} {l : List α} {r : List β} {c : γ}
    (hkey : ∀ a b, keyc (mk a b) = keyl a)
    (hc : c ∈ mergeOn keyl keyr mk l r) :
    keyc c ∈ l.map keyl := by
  rcases mem_mergeOn.mp hc with ⟨a, ha, b, _, _, rfl⟩
  rw [hkey]
  exact List.mem_map_of_mem keyl ha

/-- An inner merge of two key-distinct tables is again key-distinct. -/
theorem mergeOn_keys_nodup {keyl : α → String × Int} {keyr : β → String × Int}
    {mk : α → β → γ} {keyc : γ → String × Int} {l : List α} {r : List β}
    (hkey : ∀ a b, keyc (mk a b) = keyl a)
    (hl : (l.map keyl).Nodup) (hr : (r.map keyr).Nodup) :
    ((mergeOn keyl keyr mk l r).map keyc).Nodup := by
  induction l with
  | nil => simp [mergeOn]
  | cons a l ih =>
    simp only [List.map_cons, List.nodup_cons] at hl
    have hblock : ((r.filter (fun b => decide (keyl a = keyr b))).map (mk a)).length ≤ 1 := by
      simpa [List.length_map] using length_filter_key_le_one hr (keyl a)
    have hsplit : mergeOn keyl keyr mk (a :: l) r
        = (r.filter (fun b => decide (keyl a = keyr b))).map (mk a)
          ++ mergeOn keyl keyr mk l r := by
      simp [mergeOn]
    rw [hsplit, List.map_append, List.nodup_append]
    refine ⟨?_, ih hl.2, ?_⟩
    · cases hblk : (r.filter (fun b => decide (keyl a = keyr b))).map (mk a) with
      | nil => simp
      | cons x xs =>
        have hlen : (x :: xs).length ≤ 1 := by rw [← hblk]; exact hblock
        have hxs : xs = [] := by
          apply List.length_eq_zero.mp
          simp only [List.length_cons] at hlen
          omega
        simp [hxs]
    · intro x hx hx2
      rcases List.mem_map.mp hx with ⟨u, hu, rfl⟩
      rcases List.mem_map.mp hu with ⟨b, _, rfl⟩
      rcases List.mem_map.mp hx2 with ⟨v, hv, heq⟩
      have hvk : keyc v ∈ l.map keyl := mem_mergeOn_key hkey hv
      rw [heq, hkey] at hvk
      exact hl.1 hvk

/-! ## Joiner: size bound (C1) -/

/-- C1 as stated is false: with duplicate (country, year) pairs permitted,
the inner join multiplies matching rows, so its size can exceed the
minimum input size. Here two duplicated keys on each side produce four
joined rows against a one-row third table. -/
theorem scatter_df_size_bound_counterexample :
    ¬ ((scatter_df [⟨"A", 2000, 1⟩, ⟨"A", 2000, 2⟩]
          [⟨"A", 2000, 3⟩, ⟨"A", 2000, 4⟩]
          [⟨"A", 2000, 5⟩]).length ≤
        min ([⟨"A", 2000, 1⟩, ⟨"A", 2000, 2⟩] : List Row).length
          (min ([⟨"A", 2000, 3⟩, ⟨"A", 2000, 4⟩] : List Row).length
            ([(⟨"A", 2000, 5⟩ : Row)]).length)) := by
  decide

/-- C1 amended: when each of the three filtered inputs has pairwise
distinct (country, year) keys — the domain assumption of the spec's data
model — the three-way inner join has at most `min` of the three input
sizes many rows. -/
theorem scatter_df_size_bound (emi ren ene : List Row)
    (he : (emi.map Row.key).Nodup) (hr : (ren.map Row.key).Nodup)
    (hn : (ene.map Row.key).Nodup) :
    (scatter_df emi ren ene).length ≤ min emi.length (min ren.length ene.length) := by
  have h1 : (merge2 emi ren).length ≤ emi.length := length_mergeOn_le_left hr
  have h2 : (merge2 emi ren).length ≤ ren.length := length_mergeOn_le_right he
  have hm : ((merge2 emi ren).map Row2.key).Nodup :=
    mergeOn_keys_nodup (fun a b => rfl) he hr
  have h3 : (scatter_df emi ren ene).length ≤ (merge2 emi ren).length :=
    length_mergeOn_le_left hn
  have h4 : (scatter_df emi ren ene).length ≤ ene.length :=
    length_mergeOn_le_right hm
  exact le_min (le_trans h3 h1) (le_min (le_trans h3 h2) h4)

/-- Witness for the amended C1 on key-distinct concrete tables. -/
theorem scatter_df_size_bound_witness :
    (([(⟨"A", 2000, 1⟩ : Row), ⟨"A", 2001, 2⟩].map Row.key).Nodup) ∧
    (([(⟨"A", 2000, 3⟩ : Row)].map Row.key).Nodup) ∧
    (([(⟨"A", 2000, 5⟩ : Row), ⟨"B", 2000, 6⟩].map Row.key).Nodup) ∧
    (scatter_df [⟨"A", 2000, 1⟩, ⟨"A", 2001, 2⟩] [⟨"A", 2000, 3⟩]
        [⟨"A", 2000, 5⟩, ⟨"B", 2000, 6⟩]).length ≤
      min ([(⟨"A", 2000, 1⟩ : Row), ⟨"A", 2001, 2⟩]).length
        (min ([(⟨"A", 2000, 3⟩ : Row)]).length
          ([(⟨"A", 2000, 5⟩ : Row), ⟨"B", 2000, 6⟩]).length) :=
  ⟨by decide, by decide, by decide,
   scatter_df_size_bound [⟨"A", 2000, 1⟩, ⟨"A", 2001, 2⟩] [⟨"A", 2000, 3⟩]
     [⟨"A", 2000, 5⟩, ⟨"B", 2000, 6⟩] (by decide) (by decide) (by decide)⟩

/-! ## Joiner: membership characterization -/

/-- The three-way join in an arbitrary argument order, value columns in
argument order: the source's `scatter_df` is `join3v emi ren ene`. -/
def join3v (t1 t2 t3 : List Row) : List Row3 :=
  merge3 (merge2 t1 t2) t3

/-- A row is in the three-way inner join exactly when the three inputs
contribute rows agreeing on (country, year). -/
theorem mem_join3v {t1 t2 t3 : List Row} {u : Row3} :
    u ∈ join3v t1 t2 t3 ↔
      ∃ a ∈ t1, ∃ b ∈ t2, ∃ c ∈ t3,
        a.key = b.key ∧ a.key = c.key ∧
        u = ⟨a.country, a.year, a.value, b.value, c.value⟩ := by
  unfold join3v merge3 merge2
  rw [mem_mergeOn]
  constructor
  · rintro ⟨a2, ha2, c, hc, hkc, rfl⟩
    rcases mem_mergeOn.mp ha2 with ⟨a, ha, b, hb, hkb, rfl⟩
    exact ⟨a, ha, b, hb, c, hc, hkb, hkc, rfl⟩
  · rintro ⟨a, ha, b, hb, c, hc, hkb, hkc, rfl⟩
    refine ⟨⟨a.country, a.year, a.value, b.value⟩, ?_, c, hc, hkc, rfl⟩
    exact mem_mergeOn.mpr ⟨a, ha, b, hb, hkb, rfl⟩

/-- Equal join keys mean equal country and equal year. -/
theorem key_eq_iff {a b : Row} : a.key = b.key ↔ a.country = b.country ∧ a.year = b.year := by
  unfold Row.key
  exact Prod.ext_iff

/-- The source's `scatter_df` is the three-way join in the source's argument order. -/
theorem scatter_df_eq_join3v (emi ren ene : List Row) :
    scatter_df emi ren ene = join3v emi ren ene := rfl

/-- Joined rows that agree on key agree wholesale once the value columns
coincide. -/
theorem row3_congr {c1 c2 : String} {y1 y2 : Int} {p q r : ℚ}
    (hc : c1 = c2) (hy : y1 = y2) :
    (⟨c1, y1, p, q, r⟩ : Row3) = ⟨c2, y2, p, q, r⟩ := by
  rw [hc, hy]

/-! ## Joiner: invariance under join order (C7) -/

/-- C7: the three-way inner join yields the same result set under every
permutation of the join order of the three inputs; each permuted join is
canonicalised by putting its value columns back into (emissions,
renewables, energy) positions. -/
theorem scatter_df_join_order_invariant (emi ren ene : List Row) (t : Row3) :
    (t ∈ scatter_df emi ren ene ↔
      t ∈ (join3v emi ene ren).map (fun u => ⟨u.country, u.year, u.v1, u.v3, u.v2⟩)) ∧
    (t ∈ scatter_df emi ren ene ↔
      t ∈ (join3v ren emi ene).map (fun u => ⟨u.country, u.year, u.v2, u.v1, u.v3⟩)) ∧
    (t ∈ scatter_df emi ren ene ↔
      t ∈ (join3v ren ene emi).map (fun u => ⟨u.country, u.year, u.v3, u.v1, u.v2⟩)) ∧
    (t ∈ scatter_df emi ren ene ↔
      t ∈ (join3v ene emi ren).map (fun u => ⟨u.country, u.year, u.v2, u.v3, u.v1⟩)) ∧
    (t ∈ scatter_df emi ren ene ↔
      t ∈ (join3v ene ren emi).map (fun u => ⟨u.country, u.year, u.v3, u.v2, u.v1⟩)) := by
  rw [scatter_df_eq_join3v]
  refine ⟨⟨?_, ?_⟩, ⟨?_, ?_⟩, ⟨?_, ?_⟩, ⟨?_, ?_⟩, ⟨?_, ?_⟩⟩
  · intro h
    rcases mem_join3v.mp h with ⟨a, ha, b, hb, c0, hc0, hk1, hk2, rfl⟩
    exact List.mem_map.mpr ⟨⟨a.country, a.year, a.value, c0.value, b.value⟩,
      mem_join3v.mpr ⟨a, ha, c0, hc0, b, hb, hk2, hk1, rfl⟩, rfl⟩
  · intro h
    rcases List.mem_map.mp h with ⟨u, hu, hfu⟩
    rcases mem_join3v.mp hu with ⟨a, ha, c0, hc0, b, hb, hk1, hk2, rfl⟩
    subst hfu
    exact mem_join3v.mpr ⟨a, ha, b, hb, c0, hc0, hk2, hk1, rfl⟩
  · intro h
    rcases mem_join3v.mp h with ⟨a, ha, b, hb, c0, hc0, hk1, hk2, rfl⟩
    rcases key_eq_iff.mp hk1 with ⟨hc, hy⟩
    exact List.mem_map.mpr ⟨⟨b.country, b.year, b.value, a.value, c0.value⟩,
      mem_join3v.mpr ⟨b, hb, a, ha, c0, hc0, hk1.symm, hk1.symm.trans hk2, rfl⟩,
      row3_congr hc.symm hy.symm⟩
  · intro h
    rcases List.mem_map.mp h with ⟨u, hu, hfu⟩
    rcases mem_join3v.mp hu with ⟨b, hb, a, ha, c0, hc0, hk1, hk2, rfl⟩
    subst hfu
    rcases key_eq_iff.mp hk1 with ⟨hc, hy⟩
    exact mem_join3v.mpr ⟨a, ha, b, hb, c0, hc0, hk1.symm, hk1.symm.trans hk2,
      row3_congr hc hy⟩
  · intro h
    rcases mem_join3v.mp h with ⟨a, ha, b, hb, c0, hc0, hk1, hk2, rfl⟩
    rcases key_eq_iff.mp hk1 with ⟨hc, hy⟩
    exact List.mem_map.mpr ⟨⟨b.country, b.year, b.value, c0.value, a.value⟩,
      mem_join3v.mpr ⟨b, hb, c0, hc0, a, ha, hk1.symm.trans hk2, hk1.symm, rfl⟩,
      row3_congr hc.symm hy.symm⟩
  · intro h
    rcases List.mem_map.mp h with ⟨u, hu, hfu⟩
    rcases mem_join3v.mp hu with ⟨b, hb, c0, hc0, a, ha, hk1, hk2, rfl⟩
    subst hfu
    rcases key_eq_iff.mp hk2 with ⟨hc, hy⟩
    exact mem_join3v.mpr ⟨a, ha, b, hb, c0, hc0, hk2.symm, hk2.symm.trans hk1,
      row3_congr hc hy⟩
  · intro h
    rcases mem_join3v.mp h with ⟨a, ha, b, hb, c0, hc0, hk1, hk2, rfl⟩
    rcases key_eq_iff.mp hk2 with ⟨hc, hy⟩
    exact List.mem_map.mpr ⟨⟨c0.country, c0.year, c0.value, a.value, b.value⟩,
      mem_join3v.mpr ⟨c0, hc0, a, ha, b, hb, hk2.symm, hk2.symm.trans hk1, rfl⟩,
      row3_congr hc.symm hy.symm⟩
  · intro h
    rcases List.mem_map.mp h with ⟨u, hu, hfu⟩
    rcases mem_join3v.mp hu with ⟨c0, hc0, a, ha, b, hb, hk1, hk2, rfl⟩
    subst hfu
    rcases key_eq_iff.mp hk1 with ⟨hc, hy⟩
    exact mem_join3v.mpr ⟨a, ha, b, hb, c0, hc0, hk1.symm.trans hk2, hk1.symm,
      row3_congr hc hy⟩
  · intro h
    rcases mem_join3v.mp h with ⟨a, ha, b, hb, c0, hc0, hk1, hk2, rfl⟩
    rcases key_eq_iff.mp hk2 with ⟨hc, hy⟩
    exact List.mem_map.mpr ⟨⟨c0.country, c0.year, c0.value, b.value, a.value⟩,
      mem_join3v.mpr ⟨c0, hc0, b, hb, a, ha, hk2.symm.trans hk1, hk2.symm, rfl⟩,
      row3_congr hc.symm hy.symm⟩
  · intro h
    rcases List.mem_map.mp h with ⟨u, hu, hfu⟩
    rcases mem_join3v.mp hu with ⟨c0, hc0, b, hb, a, ha, hk1, hk2, rfl⟩
    subst hfu
    rcases key_eq_iff.mp hk2 with ⟨hc, hy⟩
    exact mem_join3v.mpr ⟨a, ha, b, hb, c0, hc0, hk2.symm.trans hk1, hk2.symm,
      row3_congr hc hy⟩

/-- Witness for C7 at concrete tables with a shared key. -/
theorem scatter_df_join_order_invariant_witness :
    ((⟨"DE", 2010, 1, 2, 3⟩ : Row3) ∈ scatter_df [⟨"DE", 2010, 1⟩] [⟨"DE", 2010, 2⟩] [⟨"DE", 2010, 3⟩] ↔
      (⟨"DE", 2010, 1, 2, 3⟩ : Row3) ∈ (join3v [⟨"DE", 2010, 1⟩] [⟨"DE", 2010, 3⟩] [⟨"DE", 2010, 2⟩]).map
        (fun u => ⟨u.country, u.year, u.v1, u.v3, u.v2⟩)) ∧
    ((⟨"DE", 2010, 1, 2, 3⟩ : Row3) ∈ scatter_df [⟨"DE", 2010, 1⟩] [⟨"DE", 2010, 2⟩] [⟨"DE", 2010, 3⟩] ↔
      (⟨"DE", 2010, 1, 2, 3⟩ : Row3) ∈ (join3v [⟨"DE", 2010, 2⟩] [⟨"DE", 2010, 1⟩] [⟨"DE", 2010, 3⟩]).map
        (fun u => ⟨u.country, u.year, u.v2, u.v1, u.v3⟩)) ∧
    ((⟨"DE", 2010, 1, 2, 3⟩ : Row3) ∈ scatter_df [⟨"DE", 2010, 1⟩] [⟨"DE", 2010, 2⟩] [⟨"DE", 2010, 3⟩] ↔
      (⟨"DE", 2010, 1, 2, 3⟩ : Row3) ∈ (join3v [⟨"DE", 2010, 2⟩] [⟨"DE", 2010, 3⟩] [⟨"DE", 2010, 1⟩]).map
        (fun u => ⟨u.country, u.year, u.v3, u.v1, u.v2⟩)) ∧
    ((⟨"DE", 2010, 1, 2, 3⟩ : Row3) ∈ scatter_df [⟨"DE", 2010, 1⟩] [⟨"DE", 2010, 2⟩] [⟨"DE", 2010, 3⟩] ↔
      (⟨"DE", 2010, 1, 2, 3⟩ : Row3) ∈ (join3v [⟨"DE", 2010, 3⟩] [⟨"DE", 2010, 1⟩] [⟨"DE", 2010, 2⟩]).map
        (fun u => ⟨u.country, u.year, u.v2, u.v3, u.v1⟩)) ∧
    ((⟨"DE", 2010, 1, 2, 3⟩ : Row3) ∈ scatter_df [⟨"DE", 2010, 1⟩] [⟨"DE", 2010, 2⟩] [⟨"DE", 2010, 3⟩] ↔
      (⟨"DE", 2010, 1, 2, 3⟩ : Row3) ∈ (join3v [⟨"DE", 2010, 3⟩] [⟨"DE", 2010, 2⟩] [⟨"DE", 2010, 1⟩]).map
        (fun u => ⟨u.country, u.year, u.v3, u.v2, u.v1⟩)) :=
  scatter_df_join_order_invariant [⟨"DE", 2010, 1⟩] [⟨"DE", 2010, 2⟩] [⟨"DE", 2010, 3⟩]
    ⟨"DE", 2010, 1, 2, 3⟩

/-! ## Joiner after filter (C10) -/

/-- C10: joining the three filtered tables never reintroduces rows outside
the active filter — every joined row carries the selected country and a
year inside the selected range. -/
theorem scatter_df_respects_filter (emi ren ene : List Row) (c : String)
    (lo hi : Int) (t : Row3)
    (ht : t ∈ scatter_df (filterTable emi c lo hi) (filterTable ren c lo hi)
      (filterTable ene c lo hi)) :
    t.country = c ∧ lo ≤ t.year ∧ t.year ≤ hi := by
  rw [scatter_df_eq_join3v] at ht
  rcases mem_join3v.mp ht with ⟨a, ha, b, hb, c0, hc0, hk1, hk2, rfl⟩
  unfold filterTable at ha
  have hpa := (List.mem_filter.mp ha).2
  simp only [Bool.and_eq_true, beq_iff_eq, decide_eq_true_eq] at hpa
  exact ⟨hpa.1.1, hpa.1.2, hpa.2⟩

/-- Witness for C10 at a concrete selection. -/
theorem scatter_df_respects_filter_witness :
    ((⟨"DE", 2010, 1, 2, 3⟩ : Row3) ∈ scatter_df
      (filterTable [⟨"DE", 2010, 1⟩, ⟨"FR", 2011, 4⟩] "DE" 2000 2020)
      (filterTable [⟨"DE", 2010, 2⟩] "DE" 2000 2020)
      (filterTable [⟨"DE", 2010, 3⟩] "DE" 2000 2020)) ∧
    ((⟨"DE", 2010, 1, 2, 3⟩ : Row3).country = "DE" ∧
      (2000 : Int) ≤ (⟨"DE", 2010, 1, 2, 3⟩ : Row3).year ∧
      (⟨"DE", 2010, 1, 2, 3⟩ : Row3).year ≤ 2020) :=
  ⟨by decide,
   scatter_df_respects_filter [⟨"DE", 2010, 1⟩, ⟨"FR", 2011, 4⟩] [⟨"DE", 2010, 2⟩]
     [⟨"DE", 2010, 3⟩] "DE" 2000 2020 ⟨"DE", 2010, 1, 2, 3⟩ (by decide)⟩

/-! ## Common year range (C2) -/

instance : Std.Antisymm (fun a b : Int => a ≤ b) :=
  ⟨@fun x y h1 h2 => le_antisymm h1 h2⟩

/-- The year-column minimum is the least member of the year column. -/
theorem minYear_iff (t : List Row) (m : Int) :
    minYear? t = some m ↔
      m ∈ t.map (fun r => r.year) ∧ ∀ y ∈ t.map (fun r => r.year), m ≤ y := by
  unfold minYear?
  exact List.min?_eq_some_iff (fun a => le_refl a) (fun a b => min_choice a b)
    (fun a b c => le_min_iff)

/-- The year-column maximum is the greatest member of the year column. -/
theorem maxYear_iff (t : List Row) (m : Int) :
    maxYear? t = some m ↔
      m ∈ t.map (fun r => r.year) ∧ ∀ y ∈ t.map (fun r => r.year), y ≤ m := by
  unfold maxYear?
  exact List.max?_eq_some_iff (fun a => le_refl a) (fun a b => max_choice a b)
    (fun a b c => max_le_iff)

/-- C2: whenever `m1`, `m2`, `m3` are the least years of the three tables
and `M1`, `M2`, `M3` their greatest years (characterised as members that
bound every other year), the code's common year range is precisely
(max of the minima, min of the maxima). -/
theorem commonYearRange_spec (t1 t2 t3 : List Row) (m1 m2 m3 M1 M2 M3 : Int)
    (h1 : m1 ∈ t1.map (fun r => r.year) ∧ ∀ y ∈ t1.map (fun r => r.year), m1 ≤ y)
    (h2 : m2 ∈ t2.map (fun r => r.year) ∧ ∀ y ∈ t2.map (fun r => r.year), m2 ≤ y)
    (h3 : m3 ∈ t3.map (fun r => r.year) ∧ ∀ y ∈ t3.map (fun r => r.year), m3 ≤ y)
    (g1 : M1 ∈ t1.map (fun r => r.year) ∧ ∀ y ∈ t1.map (fun r => r.year), y ≤ M1)
    (g2 : M2 ∈ t2.map (fun r => r.year) ∧ ∀ y ∈ t2.map (fun r => r.year), y ≤ M2)
    (g3 : M3 ∈ t3.map (fun r => r.year) ∧ ∀ y ∈ t3.map (fun r => r.year), y ≤ M3) :
    commonYearRange? t1 t2 t3 = some (max (max m1 m2) m3, min (min M1 M2) M3) := by
  unfold commonYearRange?
  rw [(minYear_iff t1 m1).mpr h1, (minYear_iff t2 m2).mpr h2, (minYear_iff t3 m3).mpr h3,
    (maxYear_iff t1 M1).mpr g1, (maxYear_iff t2 M2).mpr g2, (maxYear_iff t3 M3).mpr g3]

/-- Witness for C2: the spec's worked example — emissions spanning
1995–2021, renewables 2004–2021, energy 1990–2020 — yields (2004, 2020). -/
theorem commonYearRange_spec_witness :
    ((1995 : Int) ∈ [(⟨"DE", 1995, 1⟩ : Row), ⟨"DE", 2021, 2⟩].map (fun r => r.year) ∧
      ∀ y ∈ [(⟨"DE", 1995, 1⟩ : Row), ⟨"DE", 2021, 2⟩].map (fun r => r.year), 1995 ≤ y) ∧
    ((2004 : Int) ∈ [(⟨"DE", 2004, 3⟩ : Row), ⟨"DE", 2021, 4⟩].map (fun r => r.year) ∧
      ∀ y ∈ [(⟨"DE", 2004, 3⟩ : Row), ⟨"DE", 2021, 4⟩].map (fun r => r.year), 2004 ≤ y) ∧
    ((1990 : Int) ∈ [(⟨"DE", 1990, 5⟩ : Row), ⟨"DE", 2020, 6⟩].map (fun r => r.year) ∧
      ∀ y ∈ [(⟨"DE", 1990, 5⟩ : Row), ⟨"DE", 2020, 6⟩].map (fun r => r.year), 1990 ≤ y) ∧
    commonYearRange? [⟨"DE", 1995, 1⟩, ⟨"DE", 2021, 2⟩]
      [⟨"DE", 2004, 3⟩, ⟨"DE", 2021, 4⟩]
      [⟨"DE", 1990, 5⟩, ⟨"DE", 2020, 6⟩] = some (2004, 2020) :=
  ⟨by decide, by decide, by decide,
   (commonYearRange_spec [⟨"DE", 1995, 1⟩, ⟨"DE", 2021, 2⟩]
      [⟨"DE", 2004, 3⟩, ⟨"DE", 2021, 4⟩] [⟨"DE", 1990, 5⟩, ⟨"DE", 2020, 6⟩]
      1995 2004 1990 2021 2021 2020
      (by decide) (by decide) (by decide) (by decide) (by decide) (by decide)).trans
     (by decide)⟩

/-! ## Ranking view (C3) -/

/-- C3: `top_emitters` is computed over the full unfiltered emissions
table, so the ranking view is independent of the selected country and year
range; it returns at most 10 rows, sorted descending by per-country mean
emissions, and every returned row is a (country, mean of that country's
emissions over the full table) pair. -/
theorem top_emitters_spec (emissions : List Row) (c c' : String)
    (lo hi lo' hi' : Int) :
    rankingView emissions c lo hi = rankingView emissions c' lo' hi' ∧
    (rankingView emissions c lo hi).length ≤ 10 ∧
    (rankingView emissions c lo hi).Pairwise (fun a b => b.2 ≤ a.2) ∧
    (∀ p ∈ rankingView emissions c lo hi,
      p ∈ ((emissions.map (fun r => r.country)).dedup).map
        (fun x => (x, meanOf emissions x))) := by
  refine ⟨rfl, ?_, ?_, ?_⟩
  · rw [rankingView, top_emitters, List.length_take]
    exact min_le_left _ _
  · rw [rankingView, top_emitters]
    have hs := @List.sorted_mergeSort (String × ℚ)
      (fun a b => decide (b.2 ≤ a.2))
      (fun a b x hab hbx => by
        rw [decide_eq_true_eq] at *
        exact le_trans hbx hab)
      (fun a b => by rcases le_total a.2 b.2 with h | h <;> simp [h])
      ((emissions.map (fun r => r.country)).dedup.map (fun x => (x, meanOf emissions x)))
    exact List.Pairwise.sublist (List.take_sublist _ _)
      (hs.imp (fun hab => decide_eq_true_eq.mp hab))
  · intro p hp
    rw [rankingView, top_emitters] at hp
    exact List.mem_mergeSort.mp ((List.take_sublist _ _).subset hp)

/-- Witness for C3 at a concrete emissions table and two different filter
selections. -/
theorem top_emitters_spec_witness :
    rankingView [⟨"DE", 2010, 4⟩, ⟨"FR", 2010, 6⟩] "DE" 2000 2020 =
      rankingView [⟨"DE", 2010, 4⟩, ⟨"FR", 2010, 6⟩] "FR" 1990 1995 ∧
    (rankingView [⟨"DE", 2010, 4⟩, ⟨"FR", 2010, 6⟩] "DE" 2000 2020).length ≤ 10 ∧
    (rankingView [⟨"DE", 2010, 4⟩, ⟨"FR", 2010, 6⟩] "DE" 2000 2020).Pairwise
      (fun a b => b.2 ≤ a.2) ∧
    (∀ p ∈ rankingView [⟨"DE", 2010, 4⟩, ⟨"FR", 2010, 6⟩] "DE" 2000 2020,
      p ∈ (([(⟨"DE", 2010, 4⟩ : Row), ⟨"FR", 2010, 6⟩].map (fun r => r.country)).dedup).map
        (fun x => (x, meanOf [⟨"DE", 2010, 4⟩, ⟨"FR", 2010, 6⟩] x))) :=
  top_emitters_spec [⟨"DE", 2010, 4⟩, ⟨"FR", 2010, 6⟩] "DE" "FR" 2000 2020 1990 1995

/-! ## Correlation matrix (C8) -/

/-- Zipping a list with itself pairs each element with itself. -/
theorem zip_self (xs : List ℚ) : xs.zip xs = xs.map (fun a => (a, a)) := by
  induction xs with
  | nil => rfl
  | cons a l ih => simp [List.zip_cons_cons, ih]

/-- The self-covariance is the sum of squared deviations from the mean. -/
theorem covQ_self (xs : List ℚ) :
    covQ xs xs = (xs.map (fun a => (a - meanQ xs) * (a - meanQ xs))).sum := by
  unfold covQ
  rw [zip_self, List.map_map]
  rfl

/-- Sums of squared deviations are nonnegative. -/
theorem covQ_self_nonneg (xs : List ℚ) : 0 ≤ covQ xs xs := by
  rw [covQ_self]
  apply List.sum_nonneg
  intro x hx
  rcases List.mem_map.mp hx with ⟨a, _, rfl⟩
  exact mul_self_nonneg _

/-- A vanishing sum of squared deviations forces every entry to equal the
reference point. -/
theorem sum_sq_zero (m : ℚ) (l : List ℚ)
    (h : (l.map (fun a => (a - m) * (a - m))).sum = 0) :
    ∀ a ∈ l, a = m := by
  induction l with
  | nil => simp
  | cons b l ih =>
    simp only [List.map_cons, List.sum_cons] at h
    have h1 : 0 ≤ (b - m) * (b - m) := mul_self_nonneg _
    have h2 : 0 ≤ (l.map (fun a => (a - m) * (a - m))).sum := by
      apply List.sum_nonneg
      intro x hx
      rcases List.mem_map.mp hx with ⟨a, _, rfl⟩
      exact mul_self_nonneg _
    have hb : (b - m) * (b - m) = 0 := by linarith
    have hl : (l.map (fun a => (a - m) * (a - m))).sum = 0 := by linarith
    intro a ha
    rcases List.mem_cons.mp ha with rfl | ha'
    · have := mul_self_eq_zero.mp hb
      linarith
    · exact ih hl a ha'

/-- A non-constant column has strictly positive self-covariance. -/
theorem covQ_self_ne_zero {xs : List ℚ} (h : ¬ ConstCol xs) : covQ xs xs ≠ 0 := by
  intro h0
  apply h
  rw [covQ_self] at h0
  have hall := sum_sq_zero (meanQ xs) xs h0
  intro a ha b hb
  rw [hall a ha, hall b hb]

/-- Covariance is symmetric in its two columns. -/
theorem covQ_comm (xs ys : List ℚ) : covQ xs ys = covQ ys xs := by
  unfold covQ
  conv_rhs => rw [← List.zip_swap xs ys]
  rw [List.map_map]
  apply congrArg
  apply List.map_congr_left
  intro p hp
  simp only [Function.comp_apply, Prod.fst_swap, Prod.snd_swap]
  ring

/-- Pearson's coefficient of a non-constant column with itself is
exactly 1. -/
theorem pearson_self {xs : List ℚ} (h : ¬ ConstCol xs) : pearson xs xs = 1 := by
  unfold pearson
  have hpos : (0 : ℝ) < (covQ xs xs : ℝ) := by
    have h1 : (0 : ℚ) ≤ covQ xs xs := covQ_self_nonneg xs
    have h2 : covQ xs xs ≠ 0 := covQ_self_ne_zero h
    exact_mod_cast lt_of_le_of_ne h1 (Ne.symm h2)
  rw [Real.mul_self_sqrt (le_of_lt hpos)]
  exact div_self (ne_of_gt hpos)

/-- Pearson's coefficient is symmetric. -/
theorem pearson_comm (xs ys : List ℚ) : pearson xs ys = pearson ys xs := by
  unfold pearson
  rw [covQ_comm xs ys, mul_comm]

/-- Every column of the joined table has one entry per joined row. -/
theorem col_length (i : Fin 3) (t : List Row3) : (col i t).length = t.length := by
  fin_cases i <;> simp [col]

/-- C8: on a joined table with at least two rows and non-constant numeric
columns, the correlation matrix has diagonal entries exactly 1 and is
symmetric; on a table with fewer than two rows every entry is the
undefined-sentinel `none` rather than an error. -/
theorem corrMatrix_spec (t t' : List Row3) (h2 : 2 ≤ t.length)
    (hc0 : ¬ ConstCol (col 0 t)) (hc1 : ¬ ConstCol (col 1 t))
    (hc2 : ¬ ConstCol (col 2 t)) (h' : t'.length < 2) :
    (∀ i : Fin 3, corrMatrix t i i = some 1) ∧
    (∀ i j : Fin 3, corrMatrix t i j = corrMatrix t j i) ∧
    (∀ i j : Fin 3, corrMatrix t' i j = none) := by
  have hlen : ∀ i : Fin 3, ¬ (col i t).length < 2 := by
    intro i
    rw [col_length]
    omega
  refine ⟨?_, ?_, ?_⟩
  · intro i
    rw [corrMatrix, corrEntry?, if_neg (hlen i)]
    fin_cases i
    · exact congrArg some (pearson_self hc0)
    · exact congrArg some (pearson_self hc1)
    · exact congrArg some (pearson_self hc2)
  · intro i j
    rw [corrMatrix, corrMatrix, corrEntry?, corrEntry?,
      if_neg (hlen i), if_neg (hlen j)]
    exact congrArg some (pearson_comm _ _)
  · intro i j
    have : (col i t').length < 2 := by
      rw [col_length]
      exact h'
    rw [corrMatrix, corrEntry?, if_pos this]

/-- Witness for C8: a two-row joined table with three non-constant columns,
and a one-row table for the undefined case. -/
theorem corrMatrix_spec_witness :
    2 ≤ ([(⟨"DE", 2010, 1, 2, 3⟩ : Row3), ⟨"DE", 2011, 2, 1, 4⟩]).length ∧
    ¬ ConstCol (col 0 [⟨"DE", 2010, 1, 2, 3⟩, ⟨"DE", 2011, 2, 1, 4⟩]) ∧
    ¬ ConstCol (col 1 [⟨"DE", 2010, 1, 2, 3⟩, ⟨"DE", 2011, 2, 1, 4⟩]) ∧
    ¬ ConstCol (col 2 [⟨"DE", 2010, 1, 2, 3⟩, ⟨"DE", 2011, 2, 1, 4⟩]) ∧
    ([(⟨"DE", 2010, 4, 5, 6⟩ : Row3)]).length < 2 ∧
    ((∀ i : Fin 3, corrMatrix [⟨"DE", 2010, 1, 2, 3⟩, ⟨"DE", 2011, 2, 1, 4⟩] i i = some 1) ∧
     (∀ i j : Fin 3, corrMatrix [⟨"DE", 2010, 1, 2, 3⟩, ⟨"DE", 2011, 2, 1, 4⟩] i j =
        corrMatrix [⟨"DE", 2010, 1, 2, 3⟩, ⟨"DE", 2011, 2, 1, 4⟩] j i) ∧
     (∀ i j : Fin 3, corrMatrix [⟨"DE", 2010, 4, 5, 6⟩] i j = none)) :=
  ⟨by decide, by decide, by decide, by decide, by decide,
   corrMatrix_spec [⟨"DE", 2010, 1, 2, 3⟩, ⟨"DE", 2011, 2, 1, 4⟩] [⟨"DE", 2010, 4, 5, 6⟩]
     (by decide) (by decide) (by decide) (by decide) (by decide)⟩

end EnergyDash
